import Mathlib

/-!
Shallow embedding of `src/ubuntu-package-installer.py`.

Pure helpers (the `Package` class, `get_initial_packages`, the scrollbar
geometry of `draw_package_list`) are translated directly.  The effectful
core of `main_ui` is embedded as a state machine: `LoopState` holds the
Python event loop's variables, one iteration of the `while` loop is
`tick`, and the per-iteration outside world (pressed key, `dpkg-query`
outcome, whether `Popen` succeeds, the `poll()` result, the wall clock)
is an `Env` record.  An uncaught exception from `Popen` (the spawn
failing, e.g. `FileNotFoundError`) is `StepOut.crashed`; pressing `q` or
the cursor passing the last job is `StepOut.halt`.  The log-output
buffer and the right pane are not read by any modelled state, so they
are omitted.  Numbers returned by `time.time()` are modelled as exact
rationals.
-/

namespace UPI

/-- Job status, from the Python `Status` enum. -/
inductive Status
  | queued
  | processing
  | success
  | failure
  | skipped
deriving DecidableEq

/-- Python `str.strip()` on the underlying character list: drop whitespace
from both ends. -/
def stripChars (l : List Char) : List Char :=
  ((l.dropWhile Char.isWhitespace).reverse.dropWhile Char.isWhitespace).reverse

/-- Python `str.strip()`. -/
def pyStrip (s : String) : String := String.mk (stripChars s.data)

/-- First whitespace-delimited token: Python `line.split()[0]` for an
already stripped, nonempty line. -/
def firstToken (s : String) : String :=
  String.mk (s.data.takeWhile (fun c => ¬ c.isWhitespace))

/-- Python `line.startswith('#')`. -/
def startsHash (s : String) : Bool :=
  match s.data with
  | [] => false
  | c :: _ => c == '#'

/-- The `Package` class: `line` is the stripped source line (the job key),
`name` its first token, `status` the job status. -/
structure Package where
  line : String
  name : String
  status : Status
deriving DecidableEq

/-- `Package.__init__`: strip the raw line; the name is `line.split()[0]`
when the stripped line is nonempty, else the empty string; status starts
`QUEUED`. -/
def mkPackage (raw : String) : Package :=
  { line := pyStrip raw
    name := if pyStrip raw = "" then "" else firstToken (pyStrip raw)
    status := Status.queued }

/-- Outcome of running `dpkg-query` for the pre-check: clean exit,
nonzero exit (`CalledProcessError`), or the tool being absent
(`FileNotFoundError`). -/
inductive DpkgOutcome
  | exitZero
  | exitNonzero
  | toolMissing
deriving DecidableEq

/-- `check_if_installed`: true exactly when `dpkg-query` ran with
`check=True` and exited cleanly; both caught exceptions give `False`. -/
def check_if_installed (r : DpkgOutcome) : Bool :=
  match r with
  | DpkgOutcome.exitZero => true
  | DpkgOutcome.exitNonzero => false
  | DpkgOutcome.toolMissing => false

/-- One iteration of the load loop in `get_initial_packages`: skip blank
and `#`-comment lines, otherwise build the `Package` and give it its
initial status from the persisted success/failure line sets (success
checked first). -/
def loadPackage (successLines failureLines : List String) (raw : String) :
    Option Package :=
  let line := pyStrip raw
  if line = "" ∨ startsHash line = true then none
  else
    let p := mkPackage line
    if p.line ∈ successLines then some { p with status := Status.success }
    else if p.line ∈ failureLines then some { p with status := Status.failure }
    else some p

/-- `get_initial_packages`, with the three files' contents passed as line
lists; the success/failure sets are the stripped lines of the two logs. -/
def get_initial_packages (master successLog failureLog : List String) :
    List Package :=
  master.filterMap (loadPackage (successLog.map pyStrip) (failureLog.map pyStrip))

/-- Python `int(...)` on a real value: truncation toward zero. -/
def pyInt (q : ℚ) : Int := if 0 ≤ q then ⌊q⌋ else ⌈q⌉

/-- Scrollbar geometry of `draw_package_list`: when there are more
packages than visible lines the thumb row (inside the box) is
`int(scroll_percent * (max_lines - 1))`, else no scrollbar is drawn. -/
def scrollbarPos (nPkgs : Nat) (maxLines offset : Int) : Option Int :=
  if (nPkgs : Int) > maxLines then
    let maxScroll : Int := (nPkgs : Int) - maxLines
    let scrollPercent : ℚ := if maxScroll > 0 then (offset : ℚ) / (maxScroll : ℚ) else 0
    some (pyInt (scrollPercent * ((maxLines : ℚ) - 1)))
  else none

/-- The scrollbar thumb row exactly as the specification words it:
`round(scrollOffset/maxScroll*(visibleRows-1))` when `total > visibleRows`,
else omitted.  Stated only to compare against `scrollbarPos`. -/
def scrollbarPosSpec (nPkgs : Nat) (maxLines offset : Int) : Option Int :=
  if (nPkgs : Int) > maxLines then
    some (round ((offset : ℚ) / (((nPkgs : Int) - maxLines : Int) : ℚ) * ((maxLines : ℚ) - 1)))
  else none

/-- Keyboard input observed by `stdscr.getch()` in one tick; `keyNone`
covers both "no key pending" and any key the loop ignores. -/
inductive Key
  | keyNone
  | q
  | h
  | s
  | up
  | down
  | pgup
  | pgdn
deriving DecidableEq

/-- The outside world of one loop iteration: the pressed key, the
`dpkg-query` outcome (consulted only if the pre-check runs), whether
`Popen` succeeds (consulted only if a spawn is attempted), the
`process.poll()` result (consulted only while a child is live; `none`
means still running), and the wall-clock reading `time.time()`. -/
structure Env where
  key : Key
  dpkg : DpkgOutcome
  spawnOk : Bool
  pollResult : Option Int
  now : ℚ
deriving DecidableEq

/-- The mutable variables of `main_ui`'s event loop.  `times`,
`processed`, `elapsed` and `etr` are the fields of `stats_data`;
`process` is the optional `Popen` handle; `height` is the terminal
height fixed at startup. -/
structure LoopState where
  packages : List Package
  scrollOffset : Int
  showStats : Bool
  showHelp : Bool
  times : List ℚ
  processed : Nat
  elapsed : ℚ
  etr : Option ℚ
  startTime : ℚ
  pkgStartTime : ℚ
  currentIndex : Nat
  process : Option Unit
  height : Nat
deriving DecidableEq

/-- `max_list_lines = height - 2`, the number of visible package rows. -/
def maxListLines (st : LoopState) : Int := (st.height : Int) - 2

/-- Set the status of the package at position `i`, like the Python
`pkg.status = ...` on `packages[i]`. -/
def setStatusList : List Package → Nat → Status → List Package
  | [], _, _ => []
  | p :: ps, 0, x => { p with status := x } :: ps
  | p :: ps, Nat.succ n, x => p :: setStatusList ps n x

/-- Set the status of the package at the cursor. -/
def setStatus (st : LoopState) (x : Status) : LoopState :=
  { st with packages := setStatusList st.packages st.currentIndex x }

/-- Offset change for one scroll key (`max_list_lines` passed as `m`). -/
def scrollDelta (k : Key) (m : Int) : Int :=
  match k with
  | Key.up => -1
  | Key.down => 1
  | Key.pgup => -m
  | Key.pgdn => m
  | _ => 0

/-- The clamp `max(0, min(o, max_scroll))` with
`max_scroll = max(0, len(packages) - max_list_lines)`, used verbatim by
both the input handler and the auto-scroll recomputation. -/
def clampScroll (st : LoopState) (o : Int) : Int :=
  max 0 (min o (max 0 ((st.packages.length : Int) - maxListLines st)))

/-- The input-handling block of the loop (everything but `q`, which
breaks the loop before this runs): toggle the overlays, or move and then
clamp the list scroll offset into `[0, max(0, total - max_list_lines)]`. -/
def handleInput (st : LoopState) (k : Key) : LoopState :=
  match k with
  | Key.h => { st with showHelp := !st.showHelp }
  | Key.s => { st with showStats := !st.showStats }
  | Key.up | Key.down | Key.pgup | Key.pgdn =>
      { st with scrollOffset := clampScroll st (st.scrollOffset + scrollDelta k (maxListLines st)) }
  | _ => st

/-- The completion branch: on `returncode == 0` mark the cursor job
`SUCCESS` and, if `pkg_start_time > 0`, append `time.time() -
pkg_start_time` to `stats_data['times']`; otherwise mark it `FAILURE`.
Either way clear the process handle, zero `pkg_start_time`, and advance
the cursor. -/
def completeJob (st : LoopState) (e : Env) (rc : Int) : LoopState :=
  if rc = 0 then
    if 0 < st.pkgStartTime then
      { setStatus st Status.success with
          times := st.times ++ [e.now - st.pkgStartTime]
          process := none
          pkgStartTime := 0
          currentIndex := st.currentIndex + 1 }
    else
      { setStatus st Status.success with
          process := none
          pkgStartTime := 0
          currentIndex := st.currentIndex + 1 }
  else
    { setStatus st Status.failure with
        process := none
        pkgStartTime := 0
        currentIndex := st.currentIndex + 1 }

/-- Result of the main state machine block plus which external calls it
made this tick (`precheck` = `check_if_installed`, `spawned` = `Popen`).
`Except.error ()` is an uncaught exception from `Popen`. -/
structure MachineOut where
  res : Except Unit LoopState
  precheck : Bool
  spawned : Bool

/-- The `--- Main State Machine ---` block of the loop body.  With no
live process: look at the cursor package; if `QUEUED`, run the
pre-check and either skip or spawn; afterwards, if the status is not
`PROCESSING`, advance the cursor.  With a live process: poll, and on
exit run the completion branch.  The nonblocking output drain touches
only the (unmodelled) log buffer. -/
def machineStep (st : LoopState) (e : Env) : MachineOut :=
  match st.process with
  | some _ =>
      match e.pollResult with
      | none => { res := Except.ok st, precheck := false, spawned := false }
      | some rc => { res := Except.ok (completeJob st e rc), precheck := false, spawned := false }
  | none =>
      match st.packages[st.currentIndex]? with
      | none => { res := Except.ok st, precheck := false, spawned := false }
      | some pkg =>
          if pkg.status = Status.queued then
            if check_if_installed e.dpkg then
              { res := Except.ok { setStatus st Status.skipped with
                  currentIndex := st.currentIndex + 1 }
                precheck := true, spawned := false }
            else if e.spawnOk then
              { res := Except.ok { setStatus st Status.processing with
                  process := some ()
                  pkgStartTime := e.now }
                precheck := true, spawned := true }
            else
              { res := Except.error (), precheck := true, spawned := true }
          else if pkg.status = Status.processing then
            { res := Except.ok st, precheck := false, spawned := false }
          else
            { res := Except.ok { st with currentIndex := st.currentIndex + 1 }
              precheck := false, spawned := false }

/-- Count of packages whose status is `x`. -/
def countStatus (l : List Package) (x : Status) : Nat :=
  l.countP (fun p => decide (p.status = x))

/-- Count of packages whose status is `SUCCESS`, `FAILURE` or `SKIPPED`:
the `stats_data['processed']` recomputation. -/
def resolvedCount (l : List Package) : Nat :=
  l.countP (fun p =>
    decide (p.status = Status.success ∨ p.status = Status.failure ∨ p.status = Status.skipped))

/-- The `--- Update stats ---` block: recompute `processed` and
`elapsed`; if `times` is nonempty set `etr` to the mean completed
duration times the count of still-`QUEUED` packages, else leave `etr`
alone. -/
def recomputeStats (st : LoopState) (e : Env) : LoopState :=
  { st with
      processed := resolvedCount st.packages
      elapsed := e.now - st.startTime
      etr :=
        if st.times ≠ [] then
          some (st.times.sum / (st.times.length : ℚ) * (countStatus st.packages Status.queued : ℚ))
        else st.etr }

/-- The `--- CORRECTED LIVE AUTO-SCROLL ---` block: every tick the
offset is recomputed as `current_index - max_list_lines // 2` clamped
into `[0, max(0, total - max_list_lines)]`. -/
def autoScroll (st : LoopState) : LoopState :=
  { st with scrollOffset := clampScroll st ((st.currentIndex : Int) - Int.fdiv (maxListLines st) 2) }

/-- Result of one loop iteration: an uncaught exception (`crashed`), the
loop ending (`halt`, on `q` or on the cursor having passed the last
job), or the next state. -/
inductive StepOut
  | crashed
  | halt (s : LoopState)
  | next (s : LoopState)
deriving DecidableEq

/-- True exactly on `StepOut.next`. -/
def isNext (o : StepOut) : Bool :=
  match o with
  | StepOut.next _ => true
  | _ => false

/-- A tick's outcome together with which external calls it made. -/
structure TickOut where
  out : StepOut
  precheck : Bool
  spawned : Bool

/-- One full iteration of `while current_index < len(packages)`: input
handling (with `q` breaking immediately), the state machine, the stats
recomputation, and the auto-scroll recomputation. -/
def tickFull (st : LoopState) (e : Env) : TickOut :=
  if st.currentIndex < st.packages.length then
    if e.key = Key.q then { out := StepOut.halt st, precheck := false, spawned := false }
    else
      { out :=
          match (machineStep (handleInput st e.key) e).res with
          | Except.error _ => StepOut.crashed
          | Except.ok st2 => StepOut.next (autoScroll (recomputeStats st2 e))
        precheck := (machineStep (handleInput st e.key) e).precheck
        spawned := (machineStep (handleInput st e.key) e).spawned }
  else { out := StepOut.halt st, precheck := false, spawned := false }

/-- One loop iteration, outcome only. -/
def tick (st : LoopState) (e : Env) : StepOut := (tickFull st e).out

/-- The state right after `main_ui`'s initialization, given the three
files' contents, the terminal height, and the `time.time()` reading
taken for `start_time`. -/
def initState (master successLog failureLog : List String) (height : Nat) (t0 : ℚ) :
    LoopState :=
  { packages := get_initial_packages master successLog failureLog
    scrollOffset := 0
    showStats := true
    showHelp := false
    times := []
    processed := 0
    elapsed := 0
    etr := none
    startTime := t0
    pkgStartTime := 0
    currentIndex := 0
    process := none
    height := height }

/-- States the event loop can be in: the initial state, or any state
produced by a tick that continued the loop. -/
inductive Reachable (init : LoopState) : LoopState → Prop
  | refl : Reachable init init
  | tail {s s' : LoopState} (e : Env) :
      Reachable init s → tick s e = StepOut.next s' → Reachable init s'

/-- The status transitions the specification allows for one job over one
tick: unchanged, `QUEUED → SKIPPED`, `QUEUED → PROCESSING`,
`PROCESSING → SUCCESS`, or `PROCESSING → FAILURE`. -/
def statusTrans (a b : Status) : Prop :=
  a = b ∨ (a = Status.queued ∧ b = Status.skipped) ∨
    (a = Status.queued ∧ b = Status.processing) ∨
    (a = Status.processing ∧ b = Status.success) ∨
    (a = Status.processing ∧ b = Status.failure)

/-- The state with only the scroll offset replaced. -/
def setScroll (st : LoopState) (o : Int) : LoopState := { st with scrollOffset := o }

/-- Relation between the process handle and the statuses: with no live
process no package is `PROCESSING`; with a live process the cursor is in
bounds, the cursor package is `PROCESSING`, and it is the only one. -/
def ProcInv (st : LoopState) : Prop :=
  (st.process = none → countStatus st.packages Status.processing = 0) ∧
  (st.process ≠ none →
    st.currentIndex < st.packages.length ∧
    (∃ pkg, st.packages[st.currentIndex]? = some pkg ∧ pkg.status = Status.processing) ∧
    countStatus st.packages Status.processing = 1)

/-- The inductive invariant of the event loop. -/
def Inv (st : LoopState) : Prop :=
  ProcInv st ∧
  (st.times = [] → st.etr = none) ∧
  (st.times ≠ [] →
     st.etr = some (st.times.sum / (st.times.length : ℚ) *
       (countStatus st.packages Status.queued : ℚ))) ∧
  0 ≤ st.scrollOffset ∧
  st.scrollOffset ≤ max 0 ((st.packages.length : Int) - maxListLines st)

/-! Field bookkeeping for the loop stages. -/

@[simp] lemma handleInput_packages (st : LoopState) (k : Key) :
    (handleInput st k).packages = st.packages := by cases k <;> rfl

@[simp] lemma handleInput_currentIndex (st : LoopState) (k : Key) :
    (handleInput st k).currentIndex = st.currentIndex := by cases k <;> rfl

@[simp] lemma handleInput_process (st : LoopState) (k : Key) :
    (handleInput st k).process = st.process := by cases k <;> rfl

@[simp] lemma handleInput_times (st : LoopState) (k : Key) :
    (handleInput st k).times = st.times := by cases k <;> rfl

@[simp] lemma handleInput_etr (st : LoopState) (k : Key) :
    (handleInput st k).etr = st.etr := by cases k <;> rfl

@[simp] lemma handleInput_pkgStartTime (st : LoopState) (k : Key) :
    (handleInput st k).pkgStartTime = st.pkgStartTime := by cases k <;> rfl

@[simp] lemma handleInput_startTime (st : LoopState) (k : Key) :
    (handleInput st k).startTime = st.startTime := by cases k <;> rfl

@[simp] lemma handleInput_height (st : LoopState) (k : Key) :
    (handleInput st k).height = st.height := by cases k <;> rfl

@[simp] lemma recomputeStats_packages (st : LoopState) (e : Env) :
    (recomputeStats st e).packages = st.packages := rfl

@[simp] lemma recomputeStats_currentIndex (st : LoopState) (e : Env) :
    (recomputeStats st e).currentIndex = st.currentIndex := rfl

@[simp] lemma recomputeStats_process (st : LoopState) (e : Env) :
    (recomputeStats st e).process = st.process := rfl

@[simp] lemma recomputeStats_times (st : LoopState) (e : Env) :
    (recomputeStats st e).times = st.times := rfl

@[simp] lemma recomputeStats_pkgStartTime (st : LoopState) (e : Env) :
    (recomputeStats st e).pkgStartTime = st.pkgStartTime := rfl

@[simp] lemma recomputeStats_height (st : LoopState) (e : Env) :
    (recomputeStats st e).height = st.height := rfl

lemma recomputeStats_etr (st : LoopState) (e : Env) :
    (recomputeStats st e).etr =
      if st.times ≠ [] then
        some (st.times.sum / (st.times.length : ℚ) *
          (countStatus st.packages Status.queued : ℚ))
      else st.etr := rfl

@[simp] lemma autoScroll_packages (st : LoopState) :
    (autoScroll st).packages = st.packages := rfl

@[simp] lemma autoScroll_currentIndex (st : LoopState) :
    (autoScroll st).currentIndex = st.currentIndex := rfl

@[simp] lemma autoScroll_process (st : LoopState) :
    (autoScroll st).process = st.process := rfl

@[simp] lemma autoScroll_times (st : LoopState) :
    (autoScroll st).times = st.times := rfl

@[simp] lemma autoScroll_etr (st : LoopState) :
    (autoScroll st).etr = st.etr := rfl

@[simp] lemma autoScroll_pkgStartTime (st : LoopState) :
    (autoScroll st).pkgStartTime = st.pkgStartTime := rfl

@[simp] lemma autoScroll_height (st : LoopState) :
    (autoScroll st).height = st.height := rfl

@[simp] lemma autoScroll_scrollOffset (st : LoopState) :
    (autoScroll st).scrollOffset =
      clampScroll st ((st.currentIndex : Int) - Int.fdiv (maxListLines st) 2) := rfl

@[simp] lemma setStatus_packages (st : LoopState) (x : Status) :
    (setStatus st x).packages = setStatusList st.packages st.currentIndex x := rfl

@[simp] lemma setStatus_process (st : LoopState) (x : Status) :
    (setStatus st x).process = st.process := rfl

@[simp] lemma setStatus_currentIndex (st : LoopState) (x : Status) :
    (setStatus st x).currentIndex = st.currentIndex := rfl

@[simp] lemma setStatus_times (st : LoopState) (x : Status) :
    (setStatus st x).times = st.times := rfl

@[simp] lemma setStatus_etr (st : LoopState) (x : Status) :
    (setStatus st x).etr = st.etr := rfl

@[simp] lemma completeJob_process (st : LoopState) (e : Env) (rc : Int) :
    (completeJob st e rc).process = none := by
  unfold completeJob; split <;> (try split) <;> rfl

@[simp] lemma completeJob_currentIndex (st : LoopState) (e : Env) (rc : Int) :
    (completeJob st e rc).currentIndex = st.currentIndex + 1 := by
  unfold completeJob; split <;> (try split) <;> rfl

@[simp] lemma completeJob_pkgStartTime (st : LoopState) (e : Env) (rc : Int) :
    (completeJob st e rc).pkgStartTime = 0 := by
  unfold completeJob; split <;> (try split) <;> rfl

@[simp] lemma completeJob_etr (st : LoopState) (e : Env) (rc : Int) :
    (completeJob st e rc).etr = st.etr := by
  unfold completeJob; split <;> (try split) <;> rfl

@[simp] lemma completeJob_height (st : LoopState) (e : Env) (rc : Int) :
    (completeJob st e rc).height = st.height := by
  unfold completeJob; split <;> (try split) <;> rfl

lemma completeJob_packages (st : LoopState) (e : Env) (rc : Int) :
    (completeJob st e rc).packages =
      setStatusList st.packages st.currentIndex
        (if rc = 0 then Status.success else Status.failure) := by
  unfold completeJob; split <;> (try split) <;> simp [setStatus]

lemma completeJob_times (st : LoopState) (e : Env) (rc : Int) :
    (completeJob st e rc).times =
      if rc = 0 ∧ 0 < st.pkgStartTime then st.times ++ [e.now - st.pkgStartTime]
      else st.times := by
  unfold completeJob
  by_cases h0 : rc = 0
  · by_cases hs : 0 < st.pkgStartTime <;> simp [h0, hs]
  · simp [h0]

/-! Lemmas about `setStatusList`. -/

@[simp] lemma setStatusList_length (l : List Package) (i : Nat) (x : Status) :
    (setStatusList l i x).length = l.length := by
  induction l generalizing i with
  | nil => rfl
  | cons p ps ih => cases i with
    | zero => rfl
    | succ n => simpa [setStatusList] using ih n

lemma getElem?_setStatusList_self (l : List Package) (i : Nat) (x : Status) :
    (setStatusList l i x)[i]? = (l[i]?).map (fun p => { p with status := x }) := by
  induction l generalizing i with
  | nil => cases i <;> rfl
  | cons p ps ih => cases i with
    | zero => simp [setStatusList]
    | succ n => simpa [setStatusList] using ih n

lemma getElem?_setStatusList_ne (l : List Package) (i j : Nat) (x : Status)
    (h : j ≠ i) : (setStatusList l i x)[j]? = l[j]? := by
  induction l generalizing i j with
  | nil => cases i <;> rfl
  | cons p ps ih =>
      cases i with
      | zero =>
          cases j with
          | zero => exact absurd rfl h
          | succ m => simp [setStatusList]
      | succ n =>
          cases j with
          | zero => simp [setStatusList]
          | succ m =>
              simpa [setStatusList] using ih n m (fun hc => h (by omega))

lemma countP_setStatusList (l : List Package) (i : Nat) (x : Status) (pkg : Package)
    (h : l[i]? = some pkg) (q : Package → Bool) :
    (setStatusList l i x).countP q + (if q pkg then 1 else 0)
      = l.countP q + (if q { pkg with status := x } then 1 else 0) := by
  induction l generalizing i with
  | nil => simp at h
  | cons p ps ih =>
      cases i with
      | zero =>
          simp only [List.getElem?_cons_zero, Option.some.injEq] at h
          subst h
          simp only [setStatusList, List.countP_cons]
          omega
      | succ n =>
          simp only [List.getElem?_cons_succ] at h
          have := ih n h
          simp only [setStatusList, List.countP_cons]
          omega

/-! Counting lemmas. -/

lemma countStatus_cons (p : Package) (l : List Package) (x : Status) :
    countStatus (p :: l) x = countStatus l x + (if p.status = x then 1 else 0) := by
  simp [countStatus, List.countP_cons]

lemma resolvedCount_cons (p : Package) (l : List Package) :
    resolvedCount (p :: l) = resolvedCount l +
      (if p.status = Status.success ∨ p.status = Status.failure ∨ p.status = Status.skipped
       then 1 else 0) := by
  simp [resolvedCount, List.countP_cons]

lemma status_partition (l : List Package) :
    countStatus l Status.queued + countStatus l Status.processing + resolvedCount l
      = l.length := by
  induction l with
  | nil => rfl
  | cons p ps ih =>
      rw [countStatus_cons, countStatus_cons, resolvedCount_cons, List.length_cons]
      cases hp : p.status <;> simp [hp] <;> omega

lemma countStatus_eq_zero {l : List Package} {x : Status}
    (h : ∀ p ∈ l, p.status ≠ x) : countStatus l x = 0 := by
  unfold countStatus
  rw [List.countP_eq_zero]
  intro p hp
  simp [h p hp]

lemma countStatus_setStatusList {l : List Package} {i : Nat} {pkg : Package}
    (h : l[i]? = some pkg) (x y : Status) :
    countStatus (setStatusList l i x) y + (if pkg.status = y then 1 else 0)
      = countStatus l y + (if x = y then 1 else 0) := by
  have hc := countP_setStatusList l i x pkg h (fun p => decide (p.status = y))
  simp only [countStatus, decide_eq_true_eq] at hc ⊢
  convert hc using 3

/-! Anatomy of one state-machine step and of one tick. -/

lemma machineStep_ok_cases {st st2 : LoopState} {e : Env}
    (h : (machineStep st e).res = Except.ok st2) :
    st2 = st ∨
    (st.process = none ∧ ∃ pkg, st.packages[st.currentIndex]? = some pkg ∧
      ((pkg.status = Status.queued ∧ check_if_installed e.dpkg = true ∧
          st2 = { setStatus st Status.skipped with currentIndex := st.currentIndex + 1 }) ∨
       (pkg.status = Status.queued ∧ check_if_installed e.dpkg = false ∧ e.spawnOk = true ∧
          st2 = { setStatus st Status.processing with
                    process := some ()
                    pkgStartTime := e.now }) ∨
       (pkg.status ≠ Status.queued ∧ pkg.status ≠ Status.processing ∧
          st2 = { st with currentIndex := st.currentIndex + 1 }))) ∨
    (∃ rc, st.process = some () ∧ e.pollResult = some rc ∧ st2 = completeJob st e rc) := by
  rcases hp : st.process with _ | u
  · rcases hg : st.packages[st.currentIndex]? with _ | pkg
    · have hst : (machineStep st e).res = Except.ok st := by
        unfold machineStep; rw [hp, hg]
      rw [hst] at h
      injection h with h
      exact Or.inl h.symm
    · by_cases hq : pkg.status = Status.queued
      · by_cases hi : check_if_installed e.dpkg = true
        · have hst : (machineStep st e).res = Except.ok
              { setStatus st Status.skipped with currentIndex := st.currentIndex + 1 } := by
            unfold machineStep; rw [hp, hg]; simp [hq, hi]
          rw [hst] at h
          injection h with h
          exact Or.inr (Or.inl ⟨rfl, pkg, rfl, Or.inl ⟨hq, hi, h.symm⟩⟩)
        · by_cases hsp : e.spawnOk = true
          · have hst : (machineStep st e).res = Except.ok
                { setStatus st Status.processing with
                    process := some ()
                    pkgStartTime := e.now } := by
              unfold machineStep; rw [hp, hg]; simp [hq, hi, hsp]
            rw [hst] at h
            injection h with h
            exact Or.inr (Or.inl ⟨rfl, pkg, rfl,
              Or.inr (Or.inl ⟨hq, by simpa using hi, hsp, h.symm⟩)⟩)
          · have hst : (machineStep st e).res = Except.error () := by
              unfold machineStep; rw [hp, hg]; simp [hq, hi, hsp]
            rw [hst] at h
            cases h
      · by_cases hpr : pkg.status = Status.processing
        · have hst : (machineStep st e).res = Except.ok st := by
            unfold machineStep; rw [hp, hg]; simp [hq, hpr]
          rw [hst] at h
          injection h with h
          exact Or.inl h.symm
        · have hst : (machineStep st e).res = Except.ok
              { st with currentIndex := st.currentIndex + 1 } := by
            unfold machineStep; rw [hp, hg]; simp [hq, hpr]
          rw [hst] at h
          injection h with h
          rw [hp] at h
          exact Or.inr (Or.inl ⟨rfl, pkg, rfl, Or.inr (Or.inr ⟨hq, hpr, h.symm⟩)⟩)
  · cases u
    rcases hpoll : e.pollResult with _ | rc
    · have hst : (machineStep st e).res = Except.ok st := by
        unfold machineStep; rw [hp, hpoll]
      rw [hst] at h
      injection h with h
      exact Or.inl h.symm
    · have hst : (machineStep st e).res = Except.ok (completeJob st e rc) := by
        unfold machineStep; rw [hp, hpoll]
      rw [hst] at h
      injection h with h
      exact Or.inr (Or.inr ⟨rc, rfl, rfl, h.symm⟩)

lemma tick_next_elim {st : LoopState} {e : Env} {s' : LoopState}
    (h : tick st e = StepOut.next s') :
    st.currentIndex < st.packages.length ∧ e.key ≠ Key.q ∧
      ∃ st2, (machineStep (handleInput st e.key) e).res = Except.ok st2 ∧
        s' = autoScroll (recomputeStats st2 e) := by
  unfold tick tickFull at h
  by_cases hlt : st.currentIndex < st.packages.length
  · rw [if_pos hlt] at h
    by_cases hq : e.key = Key.q
    · rw [if_pos hq] at h
      cases h
    · rw [if_neg hq] at h
      rcases hres : (machineStep (handleInput st e.key) e).res with u | st2
      · rw [hres] at h
        cases h
      · rw [hres] at h
        injection h with h
        exact ⟨hlt, hq, st2, rfl, h.symm⟩
  · rw [if_neg hlt] at h
    cases h

/-! Load-time characterization. -/

lemma mem_get_initial_packages {master succ fail : List String} {p : Package}
    (hp : p ∈ get_initial_packages master succ fail) :
    p.status = (if p.line ∈ succ.map pyStrip then Status.success
                else if p.line ∈ fail.map pyStrip then Status.failure
                else Status.queued) := by
  unfold get_initial_packages at hp
  rw [List.mem_filterMap] at hp
  obtain ⟨raw, _, hload⟩ := hp
  simp only [loadPackage] at hload
  by_cases h1 : pyStrip raw = "" ∨ startsHash (pyStrip raw) = true
  · rw [if_pos h1] at hload; cases hload
  · rw [if_neg h1] at hload
    by_cases h2 : (mkPackage (pyStrip raw)).line ∈ succ.map pyStrip
    · rw [if_pos h2] at hload
      injection hload with hload
      subst hload
      have hline : ({ mkPackage (pyStrip raw) with status := Status.success } : Package).line
          = (mkPackage (pyStrip raw)).line := rfl
      rw [hline, if_pos h2]
    · rw [if_neg h2] at hload
      by_cases h3 : (mkPackage (pyStrip raw)).line ∈ fail.map pyStrip
      · rw [if_pos h3] at hload
        injection hload with hload
        subst hload
        have hline : ({ mkPackage (pyStrip raw) with status := Status.failure } : Package).line
            = (mkPackage (pyStrip raw)).line := rfl
        rw [hline, if_neg h2, if_pos h3]
      · rw [if_neg h3] at hload
        injection hload with hload
        subst hload
        rw [if_neg h2, if_neg h3]
        rfl

/-! Clamp bounds and congruence helpers. -/

lemma clampScroll_nonneg (st : LoopState) (o : Int) : 0 ≤ clampScroll st o :=
  le_max_left 0 _

lemma clampScroll_le (st : LoopState) (o : Int) :
    clampScroll st o ≤ max 0 ((st.packages.length : Int) - maxListLines st) :=
  max_le (le_max_left 0 _) (min_le_right o _)

@[simp] lemma maxListLines_eq (st : LoopState) : maxListLines st = (st.height : Int) - 2 := rfl

lemma procInv_congr {a b : LoopState}
    (hpk : a.packages = b.packages) (hpr : a.process = b.process)
    (hci : a.currentIndex = b.currentIndex) (h : ProcInv a) : ProcInv b := by
  unfold ProcInv at h ⊢
  rw [← hpk, ← hpr, ← hci]
  exact h

/-! The invariant holds initially and is preserved by every continuing
tick, hence at every reachable state. -/

lemma inv_init (master succ fail : List String) (height : Nat) (t0 : ℚ) :
    Inv (initState master succ fail height t0) := by
  refine ⟨⟨fun _ => ?_, fun hne => absurd rfl hne⟩,
    fun _ => rfl, fun ht => absurd rfl ht, le_refl 0, le_max_left 0 _⟩
  refine countStatus_eq_zero (fun p hp => ?_)
  have h := mem_get_initial_packages hp
  split at h
  · simp [h]
  · split at h
    · simp [h]
    · simp [h]

lemma inv_step {s s' : LoopState} {e : Env} (hi : Inv s)
    (h : tick s e = StepOut.next s') : Inv s' := by
  obtain ⟨hlt, hq, st2, hres, rfl⟩ := tick_next_elim h
  obtain ⟨hA, hB, hC, hD⟩ := hi
  have hA1 : ProcInv (handleInput s e.key) :=
    procInv_congr (handleInput_packages s e.key).symm (handleInput_process s e.key).symm
      (handleInput_currentIndex s e.key).symm hA
  have hB1 : (handleInput s e.key).times = [] → (handleInput s e.key).etr = none := by
    simpa using hB
  have key : ProcInv st2 ∧ (st2.times = [] → st2.etr = none) := by
    rcases machineStep_ok_cases hres with hcase | ⟨hpnone, pkg, hg, hcase⟩ |
        ⟨rc, hpsome, hpoll, rfl⟩
    · subst hcase; exact ⟨hA1, hB1⟩
    · have hcount0 : countStatus (handleInput s e.key).packages Status.processing = 0 :=
        hA1.1 hpnone
      rcases hcase with ⟨hqd, hinst, rfl⟩ | ⟨hqd, hinst, hsp, rfl⟩ | ⟨hns1, hns2, rfl⟩
      · -- pre-check said installed: job skipped, cursor advanced
        refine ⟨⟨fun _ => ?_, fun hne => absurd hpnone hne⟩, fun ht => hB1 ht⟩
        show countStatus
          (setStatusList (handleInput s e.key).packages (handleInput s e.key).currentIndex
            Status.skipped) Status.processing = 0
        have hcs := countStatus_setStatusList hg Status.skipped Status.processing
        rw [hqd] at hcs
        simp only [hcount0] at hcs
        simpa using hcs
      · -- spawn succeeded: job marked processing, handle recorded
        refine ⟨⟨fun h0 => Option.noConfusion h0, fun _ => ⟨?_, ?_, ?_⟩⟩, fun ht => hB1 ht⟩
        · show (handleInput s e.key).currentIndex <
            (setStatusList (handleInput s e.key).packages (handleInput s e.key).currentIndex
              Status.processing).length
          rw [setStatusList_length]
          exact (List.getElem?_eq_some.mp hg).1
        · refine ⟨{ pkg with status := Status.processing }, ?_, rfl⟩
          show (setStatusList (handleInput s e.key).packages (handleInput s e.key).currentIndex
              Status.processing)[(handleInput s e.key).currentIndex]? = _
          rw [getElem?_setStatusList_self, hg]
          rfl
        · show countStatus
            (setStatusList (handleInput s e.key).packages (handleInput s e.key).currentIndex
              Status.processing) Status.processing = 1
          have hcs := countStatus_setStatusList hg Status.processing Status.processing
          rw [hqd] at hcs
          simp only [hcount0] at hcs
          simpa using hcs
      · -- already-resolved job: cursor advanced, nothing else touched
        exact ⟨⟨fun _ => hcount0, fun hne => absurd hpnone hne⟩, fun ht => hB1 ht⟩
    · -- completion poll: the live job resolved
      obtain ⟨hci, ⟨pkgc, hgc, hstc⟩, hcount1⟩ := hA1.2 (by
        intro h0
        rw [hpsome] at h0
        cases h0)
      constructor
      · refine ⟨fun _ => ?_, fun hne => absurd (completeJob_process _ _ _) hne⟩
        rw [completeJob_packages]
        have hcs := countStatus_setStatusList hgc
          (if rc = 0 then Status.success else Status.failure) Status.processing
        rw [hstc] at hcs
        simp only [hcount1] at hcs
        have hne : (if rc = 0 then Status.success else Status.failure) ≠ Status.processing := by
          split <;> simp
        rw [if_neg hne] at hcs
        simpa using hcs
      · intro ht
        rw [completeJob_times] at ht
        rw [completeJob_etr]
        split at ht
        · simp at ht
        · exact hB1 ht
  obtain ⟨hA2, hB2⟩ := key
  refine ⟨?_, ?_, ?_, ?_, ?_⟩
  · exact procInv_congr (by simp) (by simp) (by simp) hA2
  · intro ht
    simp only [autoScroll_times, recomputeStats_times] at ht
    simp only [autoScroll_etr, recomputeStats_etr, ht]
    simp [hB2 ht]
  · intro ht
    simp only [autoScroll_times, recomputeStats_times] at ht
    simp only [autoScroll_etr, recomputeStats_etr, autoScroll_times, recomputeStats_times,
      autoScroll_packages, recomputeStats_packages]
    rw [if_pos ht]
  · simp only [autoScroll_scrollOffset]
    exact clampScroll_nonneg _ _
  · simp only [autoScroll_scrollOffset, autoScroll_packages, recomputeStats_packages,
      maxListLines_eq, autoScroll_height, recomputeStats_height]
    simpa using clampScroll_le (recomputeStats st2 e) _

lemma inv_reachable {init s : LoopState} (h0 : Inv init) (h : Reachable init s) : Inv s := by
  induction h with
  | refl => exact h0
  | tail e hr ht ih => exact inv_step ih ht

/-! Concrete runs used by the witnesses. -/

/-- A run with one queued job "alpha" and empty outcome logs. -/
def sampleInit : LoopState := initState ["alpha"] [] [] 10 0

/-- A run whose master line "alpha" is already in the success log. -/
def resumeInit : LoopState := initState ["alpha"] ["alpha"] [] 10 0

/-- A tick in which no key is pressed, `dpkg-query` is absent, and
`Popen` would fail. -/
def idleEnv : Env :=
  { key := Key.keyNone, dpkg := DpkgOutcome.toolMissing, spawnOk := false
    pollResult := none, now := 101 }

/-- A tick in which no key is pressed and the pre-check reports the
package as already installed. -/
def skipEnv : Env :=
  { key := Key.keyNone, dpkg := DpkgOutcome.exitZero, spawnOk := true
    pollResult := none, now := 5 }

/-- The state produced by running `skipEnv` on `sampleInit` (the job is
skipped and the cursor advances). -/
def sampleNext : LoopState :=
  autoScroll (recomputeStats
    { setStatus (handleInput sampleInit skipEnv.key) Status.skipped with
        currentIndex := (handleInput sampleInit skipEnv.key).currentIndex + 1 } skipEnv)

/-- C4: at every tick of the event loop, the count of resolved jobs
(Success, Failure or Skipped) plus the count of Queued jobs plus one if
some job is Processing (else zero) equals the total number of jobs, and
at most one job is Processing at any instant. -/
theorem c4_tick_accounting (master succ fail : List String) (height : Nat) (t0 : ℚ)
    (s : LoopState) (hr : Reachable (initState master succ fail height t0) s) :
    resolvedCount s.packages + countStatus s.packages Status.queued +
        (if s.packages.any (fun p => decide (p.status = Status.processing)) = true
         then 1 else 0)
      = s.packages.length ∧
    countStatus s.packages Status.processing ≤ 1 := by
  have hinv := inv_reachable (inv_init master succ fail height t0) hr
  obtain ⟨hA, -, -, -, -⟩ := hinv
  have hpart := status_partition s.packages
  have hle : countStatus s.packages Status.processing ≤ 1 := by
    rcases hp : s.process with _ | u
    · rw [hA.1 hp]
      omega
    · have h1 := (hA.2 (by rw [hp]; exact fun hc => Option.noConfusion hc)).2.2
      omega
  refine ⟨?_, hle⟩
  have hany : (s.packages.any (fun p => decide (p.status = Status.processing)) = true)
      ↔ 0 < countStatus s.packages Status.processing := by
    rw [List.any_eq_true]
    unfold countStatus
    exact List.countP_pos_iff.symm
  by_cases hpos : 0 < countStatus s.packages Status.processing
  · rw [if_pos (hany.mpr hpos)]
    omega
  · rw [if_neg (fun hc => hpos (hany.mp hc))]
    omega

/-- Witness for C4, at the initial state of a concrete one-job run. -/
theorem c4_tick_accounting_witness :
    resolvedCount sampleInit.packages + countStatus sampleInit.packages Status.queued +
        (if sampleInit.packages.any (fun p => decide (p.status = Status.processing)) = true
         then 1 else 0)
      = sampleInit.packages.length ∧
    countStatus sampleInit.packages Status.processing ≤ 1 :=
  c4_tick_accounting ["alpha"] [] [] 10 0 sampleInit Reachable.refl

/-- C6: the `etr` statistic is `None` (undefined) on every tick while
`times` (the completed durations) is empty, and once nonempty it always
equals the mean completed duration times the count of Queued jobs,
recomputed from exactly those inputs. -/
theorem c6_etr_contract (master succ fail : List String) (height : Nat) (t0 : ℚ)
    (s : LoopState) (hr : Reachable (initState master succ fail height t0) s) :
    (s.times = [] → s.etr = none) ∧
    (s.times ≠ [] →
      s.etr = some (s.times.sum / (s.times.length : ℚ) *
        (countStatus s.packages Status.queued : ℚ))) := by
  have hinv := inv_reachable (inv_init master succ fail height t0) hr
  exact ⟨hinv.2.1, hinv.2.2.1⟩

/-- Witness for C6: in the concrete run, `etr` starts undefined. -/
theorem c6_etr_contract_witness : sampleInit.etr = none :=
  (c6_etr_contract ["alpha"] [] [] 10 0 sampleInit Reachable.refl).1 rfl

/-- C7: at every reachable state the list scroll offset lies in
`[0, max(0, total - visibleRows)]`; when `total ≤ visibleRows` the
offset is `0` and no scrollbar is drawn. -/
theorem c7_scroll_bound (master succ fail : List String) (height : Nat) (t0 : ℚ)
    (s : LoopState) (hr : Reachable (initState master succ fail height t0) s) :
    0 ≤ s.scrollOffset ∧
    s.scrollOffset ≤ max 0 ((s.packages.length : Int) - maxListLines s) ∧
    ((s.packages.length : Int) ≤ maxListLines s →
      s.scrollOffset = 0 ∧
      scrollbarPos s.packages.length (maxListLines s) s.scrollOffset = none) := by
  have hinv := inv_reachable (inv_init master succ fail height t0) hr
  obtain ⟨-, -, -, h0, hle⟩ := hinv
  refine ⟨h0, hle, fun hsmall => ?_⟩
  have hmax : max 0 ((s.packages.length : Int) - maxListLines s) = 0 :=
    max_eq_left (by omega)
  rw [hmax] at hle
  refine ⟨le_antisymm hle h0, ?_⟩
  unfold scrollbarPos
  rw [if_neg (not_lt.mpr hsmall)]

/-- Witness for C7 at the initial state of a concrete run whose single
job fits on the screen. -/
theorem c7_scroll_bound_witness :
    sampleInit.scrollOffset = 0 ∧
    scrollbarPos sampleInit.packages.length (maxListLines sampleInit)
      sampleInit.scrollOffset = none :=
  (c7_scroll_bound ["alpha"] [] [] 10 0 sampleInit Reachable.refl).2.2 (by decide)

/-- Python `int(q)` equals the floor for nonnegative `q`. -/
lemma pyInt_eq_floor {q : ℚ} (h : 0 ≤ q) : pyInt q = ⌊q⌋ := if_pos h

/-- C8 counterexample: with 6 packages, 4 visible lines and offset 1 the
code places the thumb at `int(1/2 * 3) = 1`, while the specified
`round(1/2 * 3) = 2`; the drawn position is not the rounded value. -/
theorem c8_scrollbar_counterexample :
    scrollbarPos 6 4 1 = some 1 ∧ scrollbarPosSpec 6 4 1 = some 2 ∧
    scrollbarPos 6 4 1 ≠ scrollbarPosSpec 6 4 1 := by
  have h1 : scrollbarPos 6 4 1 = some 1 := by
    norm_num [scrollbarPos, pyInt]
  have h2 : scrollbarPosSpec 6 4 1 = some 2 := by
    norm_num [scrollbarPosSpec, round_eq]
  refine ⟨h1, h2, ?_⟩
  rw [h1, h2]
  simp

/-- C8 amended: when `total > visibleRows` the thumb row is the
truncation `int(scrollOffset/maxScroll*(visibleRows-1))`, which for the
nonnegative offsets of a run is the floor, not the rounding, of that
value; when `total ≤ visibleRows` the scrollbar is omitted. -/
theorem c8_scrollbar_floor (nPkgs : Nat) (maxLines offset : Int)
    (hm : 1 ≤ maxLines) (ho : 0 ≤ offset) :
    ((nPkgs : Int) ≤ maxLines → scrollbarPos nPkgs maxLines offset = none) ∧
    (maxLines < (nPkgs : Int) →
      scrollbarPos nPkgs maxLines offset =
        some ⌊(offset : ℚ) / (((nPkgs : Int) - maxLines : Int) : ℚ) * ((maxLines : ℚ) - 1)⌋) := by
  constructor
  · intro hle
    unfold scrollbarPos
    rw [if_neg (not_lt.mpr hle)]
  · intro hlt
    have hms : (0 : Int) < (nPkgs : Int) - maxLines := by omega
    simp only [scrollbarPos]
    rw [if_pos hlt, if_pos hms, pyInt_eq_floor]
    refine mul_nonneg (div_nonneg ?_ ?_) ?_
    · exact_mod_cast ho
    · exact_mod_cast hms.le
    · have h1 : (1 : ℚ) ≤ (maxLines : ℚ) := by exact_mod_cast hm
      linarith

/-- Witness for C8 amended, at the counterexample's inputs. -/
theorem c8_scrollbar_floor_witness :
    scrollbarPos 6 4 1 =
      some ⌊((1 : Int) : ℚ) / ((((6 : Nat) : Int) - (4 : Int) : Int) : ℚ) * (((4 : Int) : ℚ) - 1)⌋ :=
  (c8_scrollbar_floor 6 4 1 (by decide) (by decide)).2 (by decide)

/-- C10: a job whose key is in both persisted sets loads as Success:
the success set is consulted first. -/
theorem c10_success_precedence (master succ fail : List String) (p : Package)
    (hp : p ∈ get_initial_packages master succ fail)
    (hs : p.line ∈ succ.map pyStrip) (_hf : p.line ∈ fail.map pyStrip) :
    p.status = Status.success := by
  have h := mem_get_initial_packages hp
  rw [if_pos hs] at h
  exact h

/-- Witness for C10: "alpha" listed in both logs loads as Success. -/
theorem c10_success_precedence_witness :
    (Package.mk "alpha" "alpha" Status.success).status = Status.success :=
  c10_success_precedence ["alpha"] ["alpha"] ["alpha"]
    (Package.mk "alpha" "alpha" Status.success) (by decide) (by decide) (by decide)

/-- C2: when the completion poll sees the child exited, exit code 0 sets
the cursor job to Success and appends `now - startTime` to the completed
durations; a nonzero code sets it to Failure and appends nothing; in
both cases the process handle is cleared, the cursor advances, and the
tick continues the loop. -/
theorem c2_completion_poll (st : LoopState) (e : Env) (rc : Int)
    (hproc : st.process = some ())
    (hpoll : e.pollResult = some rc)
    (hkey : e.key ≠ Key.q)
    (hlt : st.currentIndex < st.packages.length)
    (hstart : 0 < st.pkgStartTime) :
    isNext (tick st e) = true ∧
    ∀ s', tick st e = StepOut.next s' →
      s'.process = none ∧
      s'.currentIndex = st.currentIndex + 1 ∧
      (rc = 0 → (s'.packages[st.currentIndex]?).map Package.status = some Status.success ∧
        s'.times = st.times ++ [e.now - st.pkgStartTime]) ∧
      (rc ≠ 0 → (s'.packages[st.currentIndex]?).map Package.status = some Status.failure ∧
        s'.times = st.times) := by
  obtain ⟨pkg, hpkg⟩ : ∃ pkg, st.packages[st.currentIndex]? = some pkg :=
    ⟨st.packages[st.currentIndex], List.getElem?_eq_some.mpr ⟨hlt, rfl⟩⟩
  have hres : (machineStep (handleInput st e.key) e).res
      = Except.ok (completeJob (handleInput st e.key) e rc) := by
    unfold machineStep
    rw [handleInput_process, hproc, hpoll]
  have htick : tick st e = StepOut.next
      (autoScroll (recomputeStats (completeJob (handleInput st e.key) e rc) e)) := by
    unfold tick tickFull
    rw [if_pos hlt, if_neg hkey, hres]
  refine ⟨by rw [htick]; rfl, ?_⟩
  intro s' hs'
  rw [htick] at hs'
  injection hs' with hs'
  subst hs'
  refine ⟨by simp, by simp, ?_, ?_⟩
  · intro h0
    constructor
    · simp only [autoScroll_packages, recomputeStats_packages, completeJob_packages,
        handleInput_packages, handleInput_currentIndex]
      rw [getElem?_setStatusList_self, hpkg]
      simp [h0]
    · simp only [autoScroll_times, recomputeStats_times, completeJob_times,
        handleInput_times, handleInput_pkgStartTime]
      rw [if_pos ⟨h0, hstart⟩]
  · intro h0
    constructor
    · simp only [autoScroll_packages, recomputeStats_packages, completeJob_packages,
        handleInput_packages, handleInput_currentIndex]
      rw [getElem?_setStatusList_self, hpkg]
      simp [h0]
    · simp only [autoScroll_times, recomputeStats_times, completeJob_times,
        handleInput_times, handleInput_pkgStartTime]
      rw [if_neg (by simp [h0])]

/-- The state reached right before the completion poll of a run whose
single job "gamma" is being installed. -/
def c2State : LoopState :=
  { packages := [Package.mk "gamma" "gamma" Status.processing]
    scrollOffset := 0
    showStats := true
    showHelp := false
    times := []
    processed := 0
    elapsed := 0
    etr := none
    startTime := 100
    pkgStartTime := 105
    currentIndex := 0
    process := some ()
    height := 10 }

/-- A tick in which the poll reports exit code 137. -/
def c2Env : Env :=
  { key := Key.keyNone, dpkg := DpkgOutcome.toolMissing, spawnOk := true
    pollResult := some 137, now := 110 }

/-- Witness for C2: the loop continues after a 137 exit. -/
theorem c2_completion_poll_witness : isNext (tick c2State c2Env) = true :=
  (c2_completion_poll c2State c2Env 137 rfl rfl (by decide) (by decide) (by decide)).1

/-- C1 amended: if `Popen` itself fails while launching the cursor job,
the exception is not caught: the tick crashes and the loop halts, rather
than the job being marked Failure and the queue continuing. -/
theorem c1_spawn_crash (st : LoopState) (e : Env) (pkg : Package)
    (hproc : st.process = none)
    (hkey : e.key ≠ Key.q)
    (hg : st.packages[st.currentIndex]? = some pkg)
    (hqd : pkg.status = Status.queued)
    (hinst : check_if_installed e.dpkg = false)
    (hsp : e.spawnOk = false) :
    tick st e = StepOut.crashed := by
  have hres : (machineStep (handleInput st e.key) e).res = Except.error () := by
    unfold machineStep
    rw [handleInput_process, hproc, handleInput_packages, handleInput_currentIndex, hg]
    simp [hqd, hinst, hsp]
  have hlt : st.currentIndex < st.packages.length := (List.getElem?_eq_some.mp hg).1
  unfold tick tickFull
  rw [if_pos hlt, if_neg hkey, hres]

/-- The initial state of a run with one queued job when the spawn is
about to fail. -/
def c1State : LoopState := initState ["alpha"] [] [] 10 100

/-- C1 counterexample: with the installer unspawnable, the tick neither
marks the job Failure nor continues — it crashes (the Python
`FileNotFoundError` from `Popen` propagates out of the loop). -/
theorem c1_spawn_counterexample :
    tick c1State idleEnv = StepOut.crashed ∧ isNext (tick c1State idleEnv) = false :=
  ⟨rfl, rfl⟩

/-- Witness for C1 amended, at the counterexample input. -/
theorem c1_spawn_crash_witness : tick c1State idleEnv = StepOut.crashed :=
  c1_spawn_crash c1State idleEnv (Package.mk "alpha" "alpha" Status.queued)
    rfl (by decide) rfl rfl rfl rfl

/-- C3: at load time a job keyed in the success set starts Success, one
keyed in the failure set starts Failure, the rest start Queued; and on
any tick whose cursor job is already Success or Failure, neither the
pre-check nor the installer is invoked and the cursor just advances past
the untouched job. -/
theorem c3_resume_statuses (master succ fail : List String) (height : Nat) (t0 : ℚ)
    (s : LoopState) (hr : Reachable (initState master succ fail height t0) s)
    (e : Env) (hkey : e.key ≠ Key.q) :
    (∀ p ∈ get_initial_packages master succ fail,
      p.status = (if p.line ∈ succ.map pyStrip then Status.success
                  else if p.line ∈ fail.map pyStrip then Status.failure
                  else Status.queued)) ∧
    (∀ pkg, s.packages[s.currentIndex]? = some pkg →
      (pkg.status = Status.success ∨ pkg.status = Status.failure) →
      (tickFull s e).precheck = false ∧ (tickFull s e).spawned = false ∧
      isNext (tick s e) = true ∧
      ∀ s', tick s e = StepOut.next s' →
        s'.currentIndex = s.currentIndex + 1 ∧ s'.packages = s.packages) := by
  refine ⟨fun p hp => mem_get_initial_packages hp, ?_⟩
  intro pkg hg hres
  have hinv := inv_reachable (inv_init master succ fail height t0) hr
  have hproc : s.process = none := by
    rcases hpr : s.process with _ | u
    · rfl
    · obtain ⟨-, ⟨pkg2, hg2, hst2⟩, -⟩ :=
        hinv.1.2 (by rw [hpr]; exact fun hc => Option.noConfusion hc)
      rw [hg] at hg2
      injection hg2 with hg2
      rw [← hg2] at hst2
      rcases hres with h | h <;> rw [h] at hst2 <;> exact Status.noConfusion hst2
  have hns1 : pkg.status ≠ Status.queued := by
    rcases hres with h | h <;> simp [h]
  have hns2 : pkg.status ≠ Status.processing := by
    rcases hres with h | h <;> simp [h]
  have hmach : machineStep (handleInput s e.key) e =
      { res := Except.ok { handleInput s e.key with currentIndex := s.currentIndex + 1 }
        precheck := false
        spawned := false } := by
    unfold machineStep
    rw [handleInput_process, hproc, handleInput_packages, handleInput_currentIndex, hg]
    simp [hns1, hns2]
    exact hproc.symm
  have hlt : s.currentIndex < s.packages.length := (List.getElem?_eq_some.mp hg).1
  have htick : tickFull s e =
      { out := StepOut.next (autoScroll (recomputeStats
          { handleInput s e.key with currentIndex := s.currentIndex + 1 } e))
        precheck := false
        spawned := false } := by
    unfold tickFull
    rw [if_pos hlt, if_neg hkey, hmach]
  refine ⟨by rw [htick], by rw [htick], ?_, ?_⟩
  · show isNext (tickFull s e).out = true
    rw [htick]
    rfl
  · intro s' hs'
    unfold tick at hs'
    rw [htick] at hs'
    injection hs' with hs'
    subst hs'
    exact ⟨by simp, by simp⟩

/-- Witness for C3: job "alpha" resumed as Success is passed over
without consulting the system or spawning anything. -/
theorem c3_resume_statuses_witness :
    (tickFull resumeInit idleEnv).precheck = false ∧
    (tickFull resumeInit idleEnv).spawned = false ∧
    isNext (tick resumeInit idleEnv) = true := by
  have h := (c3_resume_statuses ["alpha"] ["alpha"] [] 10 0 resumeInit Reachable.refl idleEnv
    (by decide)).2 (Package.mk "alpha" "alpha" Status.success) rfl (Or.inl rfl)
  exact ⟨h.1, h.2.1, h.2.2.1⟩

/-- What one in-place status write does to the package seen at any
position. -/
lemma status_of_setStatusList {l : List Package} {i j : Nat} {x : Status}
    {pkg pkg' : Package} (h1 : l[i]? = some pkg)
    (h2 : (setStatusList l j x)[i]? = some pkg') :
    pkg' = pkg ∨ (i = j ∧ pkg'.status = x) := by
  by_cases hij : i = j
  · subst hij
    rw [getElem?_setStatusList_self, h1] at h2
    injection h2 with h2
    exact Or.inr ⟨rfl, by rw [← h2]⟩
  · rw [getElem?_setStatusList_ne _ _ _ _ hij, h1] at h2
    injection h2 with h2
    exact Or.inl h2.symm

/-- C5: over any tick that continues the loop, each job's status either
stays unchanged or moves along one of the edges Queued to Skipped,
Queued to Processing, Processing to Success, Processing to Failure; in
particular no job ever returns to Queued. -/
theorem c5_monotonic_transitions (master succ fail : List String) (height : Nat) (t0 : ℚ)
    (s : LoopState) (hr : Reachable (initState master succ fail height t0) s)
    (e : Env) (s' : LoopState) (ht : tick s e = StepOut.next s')
    (i : Nat) (pkg pkg' : Package)
    (h1 : s.packages[i]? = some pkg) (h2 : s'.packages[i]? = some pkg') :
    statusTrans pkg.status pkg'.status ∧
    (pkg.status ≠ Status.queued → pkg'.status ≠ Status.queued) := by
  have hinv := inv_reachable (inv_init master succ fail height t0) hr
  have hmain : statusTrans pkg.status pkg'.status := by
    obtain ⟨hlt, hq, st2, hres, rfl⟩ := tick_next_elim ht
    have hpk2 : st2.packages[i]? = some pkg' := by
      simpa using h2
    rcases machineStep_ok_cases hres with hcase | ⟨hpnone, pkgc, hg, hcase⟩ |
        ⟨rc, hpsome, hpoll, rfl⟩
    · subst hcase
      rw [handleInput_packages, h1] at hpk2
      injection hpk2 with hpk2
      rw [← hpk2]
      exact Or.inl rfl
    · rw [handleInput_packages, handleInput_currentIndex] at hg
      rcases hcase with ⟨hqd, hinst, rfl⟩ | ⟨hqd, hinst, hsp, rfl⟩ | ⟨hns1, hns2, rfl⟩
      · have hpk2' : (setStatusList (handleInput s e.key).packages
            (handleInput s e.key).currentIndex Status.skipped)[i]? = some pkg' := hpk2
        rw [handleInput_packages, handleInput_currentIndex] at hpk2'
        rcases status_of_setStatusList h1 hpk2' with h | ⟨hij, hst⟩
        · rw [h]
          exact Or.inl rfl
        · subst hij
          rw [h1] at hg
          injection hg with hg
          rw [← hg] at hqd
          exact Or.inr (Or.inl ⟨hqd, hst⟩)
      · have hpk2' : (setStatusList (handleInput s e.key).packages
            (handleInput s e.key).currentIndex Status.processing)[i]? = some pkg' := hpk2
        rw [handleInput_packages, handleInput_currentIndex] at hpk2'
        rcases status_of_setStatusList h1 hpk2' with h | ⟨hij, hst⟩
        · rw [h]
          exact Or.inl rfl
        · subst hij
          rw [h1] at hg
          injection hg with hg
          rw [← hg] at hqd
          exact Or.inr (Or.inr (Or.inl ⟨hqd, hst⟩))
      · have hpk2' : (handleInput s e.key).packages[i]? = some pkg' := hpk2
        rw [handleInput_packages, h1] at hpk2'
        injection hpk2' with hpk2'
        rw [← hpk2']
        exact Or.inl rfl
    · -- completion: the cursor job was Processing by the invariant
      have hA1 : ProcInv (handleInput s e.key) :=
        procInv_congr (handleInput_packages s e.key).symm (handleInput_process s e.key).symm
          (handleInput_currentIndex s e.key).symm hinv.1
      obtain ⟨-, ⟨pkgc, hgc, hstc⟩, -⟩ := hA1.2 (by
        intro h0
        rw [hpsome] at h0
        cases h0)
      have hpk2' : (setStatusList (handleInput s e.key).packages
          (handleInput s e.key).currentIndex
          (if rc = 0 then Status.success else Status.failure))[i]? = some pkg' := by
        rw [← completeJob_packages]
        exact hpk2
      rw [handleInput_packages, handleInput_currentIndex] at hpk2' hgc
      rcases status_of_setStatusList h1 hpk2' with h | ⟨hij, hst⟩
      · rw [h]
        exact Or.inl rfl
      · subst hij
        rw [h1] at hgc
        injection hgc with hgc
        rw [← hgc] at hstc
        by_cases h0 : rc = 0
        · rw [if_pos h0] at hst
          exact Or.inr (Or.inr (Or.inr (Or.inl ⟨hstc, hst⟩)))
        · rw [if_neg h0] at hst
          exact Or.inr (Or.inr (Or.inr (Or.inr ⟨hstc, hst⟩)))
  refine ⟨hmain, fun hnq => ?_⟩
  rcases hmain with h | ⟨h, -⟩ | ⟨h, -⟩ | ⟨-, h⟩ | ⟨-, h⟩
  · rw [← h]
    exact hnq
  · exact absurd h hnq
  · exact absurd h hnq
  · simp [h]
  · simp [h]

/-- Witness for C5: in the concrete run the single tick moves "alpha"
from Queued to Skipped, an allowed edge that does not return to Queued. -/
theorem c5_monotonic_transitions_witness :
    statusTrans (Package.mk "alpha" "alpha" Status.queued).status
      (Package.mk "alpha" "alpha" Status.skipped).status ∧
    ((Package.mk "alpha" "alpha" Status.queued).status ≠ Status.queued →
      (Package.mk "alpha" "alpha" Status.skipped).status ≠ Status.queued) :=
  c5_monotonic_transitions ["alpha"] [] [] 10 0 sampleInit Reachable.refl skipEnv
    sampleNext rfl 0 (Package.mk "alpha" "alpha" Status.queued)
    (Package.mk "alpha" "alpha" Status.skipped) rfl rfl

/-! Nothing in a tick reads the incoming scroll offset except the input
handler, whose result the auto-scroll recomputation overwrites. -/

lemma handleInput_setScroll (st : LoopState) (k : Key) (o : Int) :
    handleInput (setScroll st o) k
      = setScroll (handleInput st k) (handleInput (setScroll st o) k).scrollOffset := by
  cases k <;> rfl

lemma completeJob_setScroll (st : LoopState) (e : Env) (rc : Int) (o : Int) :
    completeJob (setScroll st o) e rc = setScroll (completeJob st e rc) o := by
  unfold completeJob
  by_cases h0 : rc = 0
  · by_cases hs : 0 < st.pkgStartTime
    · simp [h0, hs, setScroll, setStatus]
    · simp [h0, hs, setScroll, setStatus]
  · simp [h0, setScroll, setStatus]

lemma machineStep_setScroll (st : LoopState) (e : Env) (o : Int) :
    machineStep (setScroll st o) e =
      { res := (machineStep st e).res.map (fun s2 => setScroll s2 o)
        precheck := (machineStep st e).precheck
        spawned := (machineStep st e).spawned } := by
  unfold machineStep
  rcases hp : st.process with _ | u
  · rw [show (setScroll st o).process = st.process from rfl, hp]
    rw [show (setScroll st o).packages = st.packages from rfl,
      show (setScroll st o).currentIndex = st.currentIndex from rfl]
    rcases hg : st.packages[st.currentIndex]? with _ | pkg
    · rfl
    · by_cases hq : pkg.status = Status.queued
      · by_cases hi : check_if_installed e.dpkg = true
        · simp [hq, hi, setStatus, setScroll, Except.map]
        · by_cases hsp : e.spawnOk = true
          · simp [hq, hi, hsp, setStatus, setScroll, Except.map]
          · simp [hq, hi, hsp, Except.map]
      · by_cases hpr : pkg.status = Status.processing
        · simp [hq, hpr, setScroll, Except.map]
        · simp [hq, hpr, setScroll, Except.map]
  · rw [show (setScroll st o).process = st.process from rfl, hp]
    rcases hpoll : e.pollResult with _ | rc
    · rfl
    · dsimp only
      rw [completeJob_setScroll]
      simp [setScroll, Except.map]

lemma recomputeStats_setScroll (st : LoopState) (e : Env) (o : Int) :
    recomputeStats (setScroll st o) e = setScroll (recomputeStats st e) o := by
  unfold recomputeStats
  simp [setScroll]

lemma autoScroll_setScroll (st : LoopState) (o : Int) :
    autoScroll (setScroll st o) = autoScroll st := by
  unfold autoScroll
  simp [setScroll, clampScroll, maxListLines]

/-- C9: after every continuing tick the drawn list offset equals the
recentering formula `currentIndex - visibleRows/2` clamped to
`[0, max(0, total - visibleRows)]`, evaluated on the post-tick state;
and the tick's result is entirely independent of the scroll offset the
state had before the tick, so prior manual scrolling cannot affect it. -/
theorem c9_autoscroll_override (s : LoopState) (e : Env) (s' : LoopState)
    (ht : tick s e = StepOut.next s') :
    s'.scrollOffset =
      max 0 (min ((s'.currentIndex : Int) - Int.fdiv (maxListLines s') 2)
        (max 0 ((s'.packages.length : Int) - maxListLines s'))) ∧
    ∀ o : Int, tick (setScroll s o) e = StepOut.next s' := by
  obtain ⟨hlt, hq, st2, hres, rfl⟩ := tick_next_elim ht
  constructor
  · simp only [autoScroll_scrollOffset, clampScroll, autoScroll_currentIndex,
      autoScroll_packages, recomputeStats_packages, recomputeStats_currentIndex,
      maxListLines_eq, autoScroll_height, recomputeStats_height]
  · intro o
    have hthis : (machineStep (handleInput (setScroll s o) e.key) e).res
        = Except.ok (setScroll st2 ((handleInput (setScroll s o) e.key).scrollOffset)) := by
      rw [handleInput_setScroll, machineStep_setScroll, hres]
      rfl
    have hred : tick (setScroll s o) e = StepOut.next (autoScroll (recomputeStats
        (setScroll st2 ((handleInput (setScroll s o) e.key).scrollOffset)) e)) := by
      unfold tick tickFull
      rw [if_pos (show (setScroll s o).currentIndex < (setScroll s o).packages.length from hlt),
        if_neg hq, hthis]
    rw [hred, recomputeStats_setScroll, autoScroll_setScroll]

/-- Witness for C9: the post-tick offset of the concrete run satisfies
the recentering formula. -/
theorem c9_autoscroll_override_witness :
    sampleNext.scrollOffset =
      max 0 (min ((sampleNext.currentIndex : Int) - Int.fdiv (maxListLines sampleNext) 2)
        (max 0 ((sampleNext.packages.length : Int) - maxListLines sampleNext))) :=
  (c9_autoscroll_override sampleInit skipEnv sampleNext rfl).1

end UPI
